import Mathlib

/-!
Verification of the address/key codec and signing protocol of
python-telestailib.

The Python sources are shallowly embedded: bytes are `List Nat` (each entry
`< 256`), Python text strings are `List Nat` of code points where character
arithmetic matters, fallible code returns `Except`, and the mutable global
parameter selection is explicit state passing.  External primitives that the
specification declares out of scope (SHA-256, RIPEMD-160, the secp256k1
curve operations) are parameters of the embedding, constrained only by the
properties the specification assumes of them.
-/

namespace Telestailib

/-- Error kinds raised by the embedded Python code. -/
inductive PyError where
  | invalidCharacter
  | tooShort
  | checksumMismatch
  | wrongVersion
  | unrecognizedVersion
  | notRecognized
  | scriptInvalid
  | valueError
  | typeError
  | attributeError
  | indexError
  | assertionError
  | invalidHeaderByte
  | recoveryFailed
  | invalidPubkey
  | incorrectPadding
  deriving DecidableEq

/-- Little-endian digits of `n` in base `b`, driven by structural fuel so
that the kernel can evaluate it on concrete inputs. -/
def toDigitsGo (b : Nat) : Nat → Nat → List Nat
  | 0, _ => []
  | fuel + 1, n => if n = 0 then [] else n % b :: toDigitsGo b fuel (n / b)

/-- Little-endian digits of `n` in base `b` (executable form of `Nat.digits`
for `2 ≤ b`). -/
def toBaseDigits (b n : Nat) : List Nat :=
  toDigitsGo b n n

/-- Big-endian byte-string value, as Python's base58 decoding computes it. -/
def bytesToNat (bs : List Nat) : Nat :=
  Nat.ofDigits 256 bs.reverse

/-- Minimal big-endian byte string of a natural number. -/
def natToBytes (n : Nat) : List Nat :=
  (toBaseDigits 256 n).reverse

/-- Number of leading occurrences of `x` in a list. -/
def countLeading (x : Nat) : List Nat → Nat
  | [] => 0
  | a :: r => if a = x then countLeading x r + 1 else 0

/-- Modelled from the spec: the 58-symbol alphabet of the Base58Check codec
(`telestai/base58.py` is not under `src/`); ASCII codes of
`123456789ABCDEFGHJKLMNPQRSTUVWXYZabcdefghijkmnopqrstuvwxyz`. -/
def b58chars : List Nat :=
  [49, 50, 51, 52, 53, 54, 55, 56, 57,
   65, 66, 67, 68, 69, 70, 71, 72, 74, 75, 76, 77, 78,
   80, 81, 82, 83, 84, 85, 86, 87, 88, 89, 90,
   97, 98, 99, 100, 101, 102, 103, 104, 105, 106, 107,
   109, 110, 111, 112, 113, 114, 115, 116, 117, 118, 119, 120, 121, 122]

/-- Character (ASCII code) of base-58 digit `d`. -/
def encDigit (d : Nat) : Nat :=
  b58chars.getD d 0

/-- Base-58 digit value of character `c` (the position of `c` in the
alphabet, as Python's table lookup computes it). -/
def decDigit (c : Nat) : Nat :=
  b58chars.indexOf c

/-- Modelled from the spec: raw base-58 encoding of a byte string
(`telestai.base58.encode`, not under `src/`): the big-endian base-58 digits
of the byte string's value, with one leading `'1'` per leading zero byte. -/
def b58encode (bs : List Nat) : List Nat :=
  List.replicate (countLeading 0 bs) 49 ++
    ((toBaseDigits 58 (bytesToNat bs)).reverse.map encDigit)

/-- Modelled from the spec: raw base-58 decoding
(`telestai.base58.decode`, not under `src/`): fails with `InvalidCharacter`
on any symbol outside the alphabet, otherwise interprets the string as a
big-endian base-58 value and restores one leading zero byte per leading
`'1'`. -/
def b58decode (s : List Nat) : Except PyError (List Nat) :=
  if s.all (fun c => decide (c ∈ b58chars)) then
    .ok (List.replicate (countLeading 49 s) 0 ++
      natToBytes (Nat.ofDigits 58 ((s.map decDigit).reverse)))
  else
    .error .invalidCharacter

/-- Modelled from the spec: Base58Check encode (§4.2,
`telestai/base58.py` not under `src/`): append the first 4 bytes of the
double-SHA256 of the payload, then base-58 encode.  `H` is the external
double-SHA256. -/
def base58CheckEncode (H : List Nat → List Nat) (payload : List Nat) : List Nat :=
  b58encode (payload ++ (H payload).take 4)

/-- Modelled from the spec: Base58Check decode (§4.2): fails with
`InvalidCharacter` on a symbol outside the alphabet, `TooShort` if fewer
than 4 bytes decode, `ChecksumMismatch` if the trailing 4 bytes differ from
the double-SHA256 prefix of the rest; on success strips the checksum. -/
def base58CheckDecode (H : List Nat → List Nat) (s : List Nat) :
    Except PyError (List Nat) :=
  match b58decode s with
  | .error e => .error e
  | .ok raw =>
    if raw.length < 4 then .error .tooShort
    else if raw.drop (raw.length - 4) = (H (raw.take (raw.length - 4))).take 4 then
      .ok (raw.take (raw.length - 4))
    else .error .checksumMismatch

/-- Network constant table from `src/telestai/__init__.py` (the
`BASE58_PREFIXES` entries and message-start bytes used by the claims). -/
structure ChainParams where
  PUBKEY_ADDR : Nat
  SCRIPT_ADDR : Nat
  SECRET_KEY : Nat
  MESSAGE_START : List Nat
  deriving DecidableEq

/-- MainParams (`src/telestai/__init__.py` lines 20–29). -/
def MainParams : ChainParams :=
  { PUBKEY_ADDR := 66, SCRIPT_ADDR := 127, SECRET_KEY := 128,
    MESSAGE_START := [0x54, 0x45, 0x4c, 0x45] }

/-- TestNetParams (`src/telestai/__init__.py` lines 32–41). -/
def TestNetParams : ChainParams :=
  { PUBKEY_ADDR := 111, SCRIPT_ADDR := 196, SECRET_KEY := 239,
    MESSAGE_START := [0x52, 0x56, 0x4e, 0x54] }

/-- RegTestParams (`src/telestai/__init__.py` lines 44–52). -/
def RegTestParams : ChainParams :=
  { PUBKEY_ADDR := 111, SCRIPT_ADDR := 196, SECRET_KEY := 239,
    MESSAGE_START := [0x43, 0x52, 0x4f, 0x57] }

/-- Version byte plus payload stored by `CBase58Data`
(`telestai/base58.py`, not under `src/`; the spec's §4.2 decode result). -/
structure CBase58Data where
  nVersion : Nat
  data : List Nat
  deriving DecidableEq

/-- Modelled from the spec: `CBase58Data.__new__` — Base58Check-decode the
string and split off the leading version byte. -/
def CBase58Data.from_str (H : List Nat → List Nat) (s : List Nat) :
    Except PyError CBase58Data :=
  match base58CheckDecode H s with
  | .error e => .error e
  | .ok [] => .error .tooShort
  | .ok (v :: d) => .ok ⟨v, d⟩

namespace CTelestaiSecret

/-- Embeds `CTelestaiSecret.from_secret_bytes`
(`src/telestai/wallet.py` 395–401): store
`secret ++ (compressed ? 0x01 : "")` under the active `SECRET_KEY`
version byte. -/
def from_secret_bytes (params : ChainParams) (secret : List Nat)
    (compressed : Bool) : CBase58Data :=
  ⟨params.SECRET_KEY, secret ++ (if compressed then [1] else [])⟩

/-- Scalar of the key as `CTelestaiSecret.__init__` extracts it
(`src/telestai/wallet.py` 408: `self[0:32]`). -/
def scalar (k : CBase58Data) : List Nat :=
  k.data.take 32

/-- Compressed flag as `CTelestaiSecret.__init__` infers it
(`src/telestai/wallet.py` 408–409: `len(self) > 32 and self[32] == 1`). -/
def isCompressed (k : CBase58Data) : Bool :=
  decide (32 < k.data.length) && (k.data.getD 32 0 == 1)

/-- Embeds `CTelestaiSecret.to_wif` (`src/telestai/wallet.py` 411–428):
payload is the stored bytes, plus `0x01` when the key is compressed,
prefixed with the `SECRET_KEY` version byte; append the 4-byte
double-SHA256 checksum and base-58 encode. -/
def to_wif (H : List Nat → List Nat) (params : ChainParams)
    (k : CBase58Data) : List Nat :=
  let payload0 := k.data ++ (if isCompressed k then [1] else [])
  let payload := params.SECRET_KEY :: payload0
  b58encode (payload ++ (H payload).take 4)

/-- Embeds `CTelestaiSecret(s)` construction
(`CBase58Data.__new__`, then `CTelestaiSecret.__init__`,
`src/telestai/wallet.py` 403–409): decode, then require the `SECRET_KEY`
version byte. -/
def from_wif (H : List Nat → List Nat) (params : ChainParams)
    (s : List Nat) : Except PyError CBase58Data :=
  match CBase58Data.from_str H s with
  | .error e => .error e
  | .ok k => if k.nVersion = params.SECRET_KEY then .ok k else .error .wrongVersion

end CTelestaiSecret

/-- Global parameter state of the `telestai` package: `telestai.params`
and `telestai.core.coreparams` (`src/telestai/__init__.py` lines 55–61,
72–78).  The core parameter set is modelled with the same record type;
only which set is active matters to the claims. -/
structure TelestaiGlobals where
  params : ChainParams
  coreparams : ChainParams
  deriving DecidableEq

/-- Modelled from the spec: `telestai.core._SelectCoreParams`
(`telestai/core/__init__.py` is not under `src/`) — replaces the core
parameter set for the three known network names and fails with the
unknown-network `ValueError` for any other name (§4.1), leaving the state
unchanged on failure. -/
def SelectCoreParams (name : String) (g : TelestaiGlobals) :
    Except PyError Unit × TelestaiGlobals :=
  if name = "mainnet" then (.ok (), { g with coreparams := MainParams })
  else if name = "testnet" then (.ok (), { g with coreparams := TestNetParams })
  else if name = "regtest" then (.ok (), { g with coreparams := RegTestParams })
  else (.error .valueError, g)

/-- Embeds `SelectParams` (`src/telestai/__init__.py` 64–80): first calls
`_SelectCoreParams`, then replaces both `params` and
`telestai.core.coreparams` for the three known names, and raises
`ValueError('Unknown chain %r')` otherwise. -/
def SelectParams (name : String) (g : TelestaiGlobals) :
    Except PyError Unit × TelestaiGlobals :=
  match SelectCoreParams name g with
  | (.error e, g1) => (.error e, g1)
  | (.ok _, g1) =>
    if name = "mainnet" then
      (.ok (), { g1 with params := MainParams, coreparams := MainParams })
    else if name = "testnet" then
      (.ok (), { g1 with params := TestNetParams, coreparams := TestNetParams })
    else if name = "regtest" then
      (.ok (), { g1 with params := RegTestParams, coreparams := RegTestParams })
    else (.error .valueError, g1)

/-- Script opcode constants used by the embedded code
(`telestai.core.script`, values are the standard Bitcoin opcodes). -/
def OP_0 : Nat := 0x00

def OP_PUSHDATA1 : Nat := 0x4c

def OP_PUSHDATA2 : Nat := 0x4d

def OP_PUSHDATA4 : Nat := 0x4e

def OP_DUP : Nat := 0x76

def OP_EQUAL : Nat := 0x87

def OP_EQUALVERIFY : Nat := 0x88

def OP_HASH160 : Nat := 0xa9

def OP_CHECKSIG : Nat := 0xac

/-- Modelled from the spec: canonical push encoding
(`CScriptOp.encode_op_pushdata` of the external script layer, §6): direct
push below `0x4c` bytes, otherwise `OP_PUSHDATA1/2/4` with a little-endian
length. -/
def pushData (bs : List Nat) : List Nat :=
  if bs.length < 0x4c then bs.length :: bs
  else if bs.length ≤ 0xff then OP_PUSHDATA1 :: bs.length :: bs
  else if bs.length ≤ 0xffff then
    OP_PUSHDATA2 :: bs.length % 256 :: bs.length / 256 % 256 :: bs
  else
    OP_PUSHDATA4 :: bs.length % 256 :: bs.length / 256 % 256 ::
      bs.length / 65536 % 256 :: bs.length / 16777216 % 256 :: bs

/-- Modelled from the spec: the script-pattern predicate `is_p2sh`
(§6 external predicate): `OP_HASH160 <20 bytes> OP_EQUAL`. -/
def is_p2sh (s : List Nat) : Bool :=
  s.length == 23 && s.getD 0 0 == OP_HASH160 && s.getD 1 0 == 0x14 &&
    s.getD 22 0 == OP_EQUAL

/-- Modelled from the spec: `is_witness_v0_keyhash` (§6):
`OP_0 <20 bytes>`. -/
def is_witness_v0_keyhash (s : List Nat) : Bool :=
  s.length == 22 && s.getD 0 0 == 0 && s.getD 1 0 == 0x14

/-- Modelled from the spec: `is_witness_v0_scripthash` (§6):
`OP_0 <32 bytes>`. -/
def is_witness_v0_scripthash (s : List Nat) : Bool :=
  s.length == 34 && s.getD 0 0 == 0 && s.getD 1 0 == 0x20

/-- Modelled from the spec: `is_witness_v0_nested_keyhash` (§6): the
scriptSig push `0x16 0x00 0x14 <20 bytes>`. -/
def is_witness_v0_nested_keyhash (s : List Nat) : Bool :=
  s.length == 23 && s.getD 0 0 == 0x16 && s.getD 1 0 == 0 && s.getD 2 0 == 0x14

/-- Element of a parsed script, as `CScript.__iter__` yields them.  The
cooked integer `0` (from opcode `OP_0`) is modelled as the empty data push:
re-encoding either gives the single byte `0x00`, and the small-int opcodes
`OP_1..OP_16` re-encode to themselves, so they are kept as `op`. -/
inductive ScriptElem where
  | op (n : Nat)
  | data (bs : List Nat)
  deriving DecidableEq

/-- Modelled from the spec: script iteration (`CScript.raw_iter`, §6):
opcodes up to `0x4b` push that many bytes, `OP_PUSHDATA1/2/4` read a
little-endian length, anything else is an opcode; truncated pushes raise
`CScriptInvalidError`.  Structural fuel; each step consumes at least one
byte, so fuel equal to the script length suffices. -/
def parseGo : Nat → List Nat → Except PyError (List ScriptElem)
  | _, [] => .ok []
  | 0, _ :: _ => .error .scriptInvalid
  | fuel + 1, b :: rest =>
    if b ≤ 0x4b then
      if rest.length < b then .error .scriptInvalid
      else (parseGo fuel (rest.drop b)).map (fun es => .data (rest.take b) :: es)
    else if b = OP_PUSHDATA1 then
      match rest with
      | [] => .error .scriptInvalid
      | n :: r2 =>
        if r2.length < n then .error .scriptInvalid
        else (parseGo fuel (r2.drop n)).map (fun es => .data (r2.take n) :: es)
    else if b = OP_PUSHDATA2 then
      match rest with
      | n0 :: n1 :: r2 =>
        if r2.length < n0 + 256 * n1 then .error .scriptInvalid
        else (parseGo fuel (r2.drop (n0 + 256 * n1))).map
          (fun es => .data (r2.take (n0 + 256 * n1)) :: es)
      | _ => .error .scriptInvalid
    else if b = OP_PUSHDATA4 then
      match rest with
      | n0 :: n1 :: n2 :: n3 :: r2 =>
        if r2.length < n0 + 256 * n1 + 65536 * n2 + 16777216 * n3 then
          .error .scriptInvalid
        else (parseGo fuel (r2.drop (n0 + 256 * n1 + 65536 * n2 + 16777216 * n3))).map
          (fun es => .data (r2.take (n0 + 256 * n1 + 65536 * n2 + 16777216 * n3)) :: es)
      | _ => .error .scriptInvalid
    else (parseGo fuel rest).map (fun es => .op b :: es)

/-- Script parse with sufficient fuel. -/
def parseScript (s : List Nat) : Except PyError (List ScriptElem) :=
  parseGo s.length s

/-- Canonical bytes of one parsed element (`CScript` coercion). -/
def elemBytes : ScriptElem → List Nat
  | .op n => [n]
  | .data bs => pushData bs

/-- Canonical re-encoding of parsed elements
(`CScript(tuple(scriptPubKey))`). -/
def serializeElems (es : List ScriptElem) : List Nat :=
  (es.map elemBytes).flatten

/-- Push canonicalization performed by `P2PKHTelestaiAddress.from_scriptPubKey`
(`src/telestai/wallet.py` 257–267). -/
def canonicalize (s : List Nat) : Except PyError (List Nat) :=
  (parseScript s).map serializeElems

/-- Address variants of the closed `Address` family. -/
inductive AddrKind where
  | p2pkh
  | p2sh
  | p2wpkh
  | p2wsh
  deriving DecidableEq

/-- An address value: runtime class tag, version byte and payload, as the
`CBase58TelestaiAddress` subclasses carry them. -/
structure TAddr where
  kind : AddrKind
  nVersion : Nat
  data : List Nat
  deriving DecidableEq

/-- Embeds `CBase58TelestaiAddress.from_bytes`
(`src/telestai/wallet.py` 126–140): classify by comparing the version byte
against the active parameters, `SCRIPT_ADDR` first. -/
def CBase58TelestaiAddress.from_bytes (p : ChainParams) (data : List Nat)
    (nVersion : Nat) : Except PyError TAddr :=
  if nVersion = p.SCRIPT_ADDR then .ok ⟨.p2sh, nVersion, data⟩
  else if nVersion = p.PUBKEY_ADDR then .ok ⟨.p2pkh, nVersion, data⟩
  else .error .unrecognizedVersion

/-- Embeds `P2SHTelestaiAddress.from_scriptPubKey`
(`src/telestai/wallet.py` 184–195). -/
def P2SHTelestaiAddress.from_scriptPubKey (p : ChainParams) (s : List Nat) :
    Except PyError TAddr :=
  if is_p2sh s then
    CBase58TelestaiAddress.from_bytes p ((s.drop 2).take 20) p.SCRIPT_ADDR
  else .error .notRecognized

/-- Embeds `P2PKHTelestaiAddress.from_pubkey` with `accept_invalid=True`
(`src/telestai/wallet.py` 224–244): hash the pubkey bytes with the external
`Hash160` and build a P2PKH address under the active pubkey version. -/
def P2PKHTelestaiAddress.from_pubkey_accept_invalid
    (hash160 : List Nat → List Nat) (p : ChainParams) (pubkey : List Nat) :
    Except PyError TAddr :=
  CBase58TelestaiAddress.from_bytes p (hash160 pubkey) p.PUBKEY_ADDR

/-- Embeds `P2PKHTelestaiAddress.from_scriptPubKey`
(`src/telestai/wallet.py` 246–301), including the canonicalization step,
the witness-v0 keyhash and nested-keyhash branches, the 25-byte P2PKH
template, and the bare-checksig fallback (note the source slices
`scriptPubKey[1:65]`, i.e. 64 bytes, in the 67-byte uncompressed case). -/
def P2PKHTelestaiAddress.from_scriptPubKey (hash160 : List Nat → List Nat)
    (p : ChainParams) (s0 : List Nat)
    (accept_non_canonical_pushdata accept_bare_checksig : Bool) :
    Except PyError TAddr :=
  match if accept_non_canonical_pushdata then canonicalize s0 else .ok s0 with
  | .error _ => .error .scriptInvalid
  | .ok s =>
    if is_witness_v0_keyhash s then
      CBase58TelestaiAddress.from_bytes p ((s.drop 2).take 20) p.PUBKEY_ADDR
    else if is_witness_v0_nested_keyhash s then
      CBase58TelestaiAddress.from_bytes p ((s.drop 3).take 20) p.PUBKEY_ADDR
    else if s.length == 25 && s.getD 0 0 == OP_DUP && s.getD 1 0 == OP_HASH160 &&
        s.getD 2 0 == 0x14 && s.getD 23 0 == OP_EQUALVERIFY &&
        s.getD 24 0 == OP_CHECKSIG then
      CBase58TelestaiAddress.from_bytes p ((s.drop 3).take 20) p.PUBKEY_ADDR
    else if accept_bare_checksig && (s.length == 35 && s.getD 0 0 == 0x21 &&
        s.getD 34 0 == OP_CHECKSIG) then
      P2PKHTelestaiAddress.from_pubkey_accept_invalid hash160 p ((s.drop 1).take 33)
    else if accept_bare_checksig && (s.length == 67 && s.getD 0 0 == 0x41 &&
        s.getD 66 0 == OP_CHECKSIG) then
      P2PKHTelestaiAddress.from_pubkey_accept_invalid hash160 p ((s.drop 1).take 64)
    else .error .notRecognized

/-- Embeds `CBase58TelestaiAddress.from_scriptPubKey`
(`src/telestai/wallet.py` 142–161): try P2SH, then P2PKH (with default
optional arguments), collapsing any failure into the final error. -/
def CBase58TelestaiAddress.from_scriptPubKey (hash160 : List Nat → List Nat)
    (p : ChainParams) (s : List Nat) : Except PyError TAddr :=
  match P2SHTelestaiAddress.from_scriptPubKey p s with
  | .ok a => .ok a
  | .error _ =>
    match P2PKHTelestaiAddress.from_scriptPubKey hash160 p s true true with
    | .ok a => .ok a
    | .error _ => .error .notRecognized

/-- Embeds `CTelestaiAddress.from_scriptPubKey`
(`src/telestai/wallet.py` 58–72): the bech32 branch is commented out in the
source, so only the base58 chain runs. -/
def CTelestaiAddress.from_scriptPubKey (hash160 : List Nat → List Nat)
    (p : ChainParams) (s : List Nat) : Except PyError TAddr :=
  match CBase58TelestaiAddress.from_scriptPubKey hash160 p s with
  | .ok a => .ok a
  | .error _ => .error .notRecognized

/-- Embeds `P2SHTelestaiAddress.to_scriptPubKey`
(`src/telestai/wallet.py` 197–200): assert the version byte matches the
active parameters, then `OP_HASH160 <push hash> OP_EQUAL`. -/
def P2SHTelestaiAddress.to_scriptPubKey (p : ChainParams) (a : TAddr) :
    Except PyError (List Nat) :=
  if a.nVersion = p.SCRIPT_ADDR then
    .ok ([OP_HASH160] ++ pushData a.data ++ [OP_EQUAL])
  else .error .assertionError

/-- Embeds `P2PKHTelestaiAddress.to_scriptPubKey`
(`src/telestai/wallet.py` 303–306). -/
def P2PKHTelestaiAddress.to_scriptPubKey (p : ChainParams) (a : TAddr) :
    Except PyError (List Nat) :=
  if a.nVersion = p.PUBKEY_ADDR then
    .ok ([OP_DUP, OP_HASH160] ++ pushData a.data ++ [OP_EQUALVERIFY, OP_CHECKSIG])
  else .error .assertionError

/-- The matching order `from_scriptPubKey` actually implements, stated
directly from the amended claim: (1) the raw script against the canonical
P2SH template; otherwise the script is push-canonicalized and matched
against (2) the witness-v0 key-hash template giving a base58 P2PKH address
of the embedded 20-byte hash, (3) the nested witness key-hash scriptSig
template giving P2PKH, (4) the canonical 25-byte P2PKH template, (5) the
bare-checksig templates giving P2PKH of the external hash of the embedded
slice (bytes 1–33 for the 35-byte form, bytes 1–64 for the 67-byte form);
anything else — including witness-v0 script-hash scripts — fails. -/
def specClassify (hash160 : List Nat → List Nat) (p : ChainParams)
    (s : List Nat) : Except PyError TAddr :=
  if is_p2sh s then .ok ⟨.p2sh, p.SCRIPT_ADDR, (s.drop 2).take 20⟩
  else
    match canonicalize s with
    | .error _ => .error .notRecognized
    | .ok cs =>
      if is_witness_v0_keyhash cs then .ok ⟨.p2pkh, p.PUBKEY_ADDR, (cs.drop 2).take 20⟩
      else if is_witness_v0_nested_keyhash cs then
        .ok ⟨.p2pkh, p.PUBKEY_ADDR, (cs.drop 3).take 20⟩
      else if cs.length == 25 && cs.getD 0 0 == OP_DUP && cs.getD 1 0 == OP_HASH160 &&
          cs.getD 2 0 == 0x14 && cs.getD 23 0 == OP_EQUALVERIFY &&
          cs.getD 24 0 == OP_CHECKSIG then
        .ok ⟨.p2pkh, p.PUBKEY_ADDR, (cs.drop 3).take 20⟩
      else if cs.length == 35 && cs.getD 0 0 == 0x21 && cs.getD 34 0 == OP_CHECKSIG then
        .ok ⟨.p2pkh, p.PUBKEY_ADDR, hash160 ((cs.drop 1).take 33)⟩
      else if cs.length == 67 && cs.getD 0 0 == 0x41 && cs.getD 66 0 == OP_CHECKSIG then
        .ok ⟨.p2pkh, p.PUBKEY_ADDR, hash160 ((cs.drop 1).take 64)⟩
      else .error .notRecognized

/-- Modelled from the spec: a transaction input (`CTxIn` of
`evrmore.core`, not under `src/`): previous output reference, unlocking
script, sequence number. -/
structure CTxIn where
  prevout : Nat × Nat
  scriptSig : List Nat
  nSequence : Nat
  deriving DecidableEq

/-- Modelled from the spec: a transaction output (`CTxOut` of
`evrmore.core`, not under `src/`). -/
structure CTxOut where
  nValue : Nat
  scriptPubKey : List Nat
  deriving DecidableEq

/-- Modelled from the spec: the transaction container
(`CMultiSigTransaction` extends `CTransaction` of `evrmore.core`, not
under `src/`). -/
structure CMultiSigTransaction where
  nVersion : Nat
  vin : List CTxIn
  vout : List CTxOut
  nLockTime : Nat
  deriving DecidableEq

/-- Embeds `CMultiSigTransaction.apply_multisig_signatures`
(`src/evrmore/core/transaction.py` 28–42): build
`CScript([OP_0])` (the single byte `0x00`), append a canonical push for
each signature in the supplied order, append a push of the serialized
redeem script, and assign the result to the first input's `scriptSig`
(`self.vin[0]`; an empty input list raises `IndexError`).  The mutation is
explicit state passing: the returned transaction is the post-state. -/
def apply_multisig_signatures (tx : CMultiSigTransaction)
    (signatures : List (List Nat)) (redeem_script : List Nat) :
    Except PyError CMultiSigTransaction :=
  let scriptSig :=
    [OP_0] ++ (signatures.foldl (fun acc sig => acc ++ pushData sig) []) ++
      pushData redeem_script
  match tx.vin with
  | [] => .error .indexError
  | i :: rest => .ok { tx with vin := { i with scriptSig := scriptSig } :: rest }

/-- External cryptographic primitives the signing protocol delegates to;
the specification (§1) places SHA-256/RIPEMD-160 and the secp256k1 curve
library out of scope and assumes them correct, so they are parameters of
the embedding. -/
structure ExtCrypto where
  dsha256 : List Nat → List Nat
  hash160 : List Nat → List Nat
  pubkeyOf : List Nat → Bool → List Nat
  isFullyValid : List Nat → Bool
  signCompact : List Nat → Bool → List Nat → List Nat × Nat
  recover : List Nat → Nat → Bool → List Nat → Except PyError (List Nat)

/-- Embeds `CKey` (`src/telestai/wallet.py` 358–385): secret bytes plus
compressed flag; the public key and signatures come from the curve
library. -/
structure CKey where
  secret : List Nat
  compressed : Bool
  deriving DecidableEq

/-- The derived public key bytes (`CKey.pub`). -/
def CKey.pub (ext : ExtCrypto) (k : CKey) : List Nat :=
  ext.pubkeyOf k.secret k.compressed

/-- Embeds `CKey.sign_compact` (`src/telestai/wallet.py` 384–385),
delegating to the curve library: returns the 64-byte signature and the
recovery id. -/
def CKey.sign_compact (ext : ExtCrypto) (k : CKey) (hash : List Nat) :
    List Nat × Nat :=
  ext.signCompact k.secret k.compressed hash

/-- ASCII codes of the standard base64 alphabet
(`A–Z a–z 0–9 + /`; Python's `base64` stdlib, external). -/
def b64chars : List Nat :=
  [65, 66, 67, 68, 69, 70, 71, 72, 73, 74, 75, 76, 77, 78, 79, 80, 81, 82,
   83, 84, 85, 86, 87, 88, 89, 90,
   97, 98, 99, 100, 101, 102, 103, 104, 105, 106, 107, 108, 109, 110, 111,
   112, 113, 114, 115, 116, 117, 118, 119, 120, 121, 122,
   48, 49, 50, 51, 52, 53, 54, 55, 56, 57, 43, 47]

/-- Alphabet symbol of a 6-bit value. -/
def b64chr (d : Nat) : Nat :=
  b64chars.getD d 0

/-- 6-bit value of an alphabet symbol. -/
def b64val (c : Nat) : Nat :=
  b64chars.indexOf c

/-- Modelled from the spec: `base64.b64encode` (Python stdlib, the spec's
base64 transport encoding, §3): 3-byte groups become 4 alphabet symbols,
with `=` (code 61) padding for a 1- or 2-byte tail. -/
def b64encode : List Nat → List Nat
  | a :: b :: c :: rest =>
    b64chr ((a * 65536 + b * 256 + c) / 262144) ::
      b64chr ((a * 65536 + b * 256 + c) / 4096 % 64) ::
      b64chr ((a * 65536 + b * 256 + c) / 64 % 64) ::
      b64chr ((a * 65536 + b * 256 + c) % 64) :: b64encode rest
  | [a, b] =>
    [b64chr ((a * 65536 + b * 256) / 262144),
     b64chr ((a * 65536 + b * 256) / 4096 % 64),
     b64chr ((a * 65536 + b * 256) / 64 % 64), 61]
  | [a] =>
    [b64chr ((a * 65536) / 262144), b64chr ((a * 65536) / 4096 % 64), 61, 61]
  | [] => []

/-- Modelled from the spec: `base64.b64decode` (Python stdlib) on
well-formed input: 4-symbol groups, `=` padding only at the end; input of
the wrong shape raises the incorrect-padding error. -/
def b64decode : List Nat → Except PyError (List Nat)
  | [] => .ok []
  | c1 :: c2 :: c3 :: c4 :: rest =>
    if c3 = 61 then
      if c4 = 61 then
        if rest.isEmpty then
          .ok [(b64val c1 * 262144 + b64val c2 * 4096) / 65536]
        else .error .incorrectPadding
      else .error .incorrectPadding
    else if c4 = 61 then
      if rest.isEmpty then
        .ok [(b64val c1 * 262144 + b64val c2 * 4096 + b64val c3 * 64) / 65536,
             (b64val c1 * 262144 + b64val c2 * 4096 + b64val c3 * 64) / 256 % 256]
      else .error .incorrectPadding
    else
      match b64decode rest with
      | .error e => .error e
      | .ok bs =>
        .ok ((b64val c1 * 262144 + b64val c2 * 4096 + b64val c3 * 64 + b64val c4) / 65536 ::
          (b64val c1 * 262144 + b64val c2 * 4096 + b64val c3 * 64 + b64val c4) / 256 % 256 ::
          (b64val c1 * 262144 + b64val c2 * 4096 + b64val c3 * 64 + b64val c4) % 256 :: bs)
  | _ => .error .incorrectPadding

/-- A signed-message envelope (`TelestaiMessage`,
`src/telestai/signmessage.py` 49–74): magic and message byte strings. -/
structure TelestaiMessage where
  magic : List Nat
  message : List Nat
  deriving DecidableEq

/-- Modelled from the spec: the compact-size length prefix written by
`BytesSerializer` (`telestai.core.serialize`, not under `src/`; the spec's
`length_prefix`, §4.5). -/
def writeCompactSize (n : Nat) : List Nat :=
  if n < 253 then [n]
  else if n < 65536 then [253, n % 256, n / 256 % 256]
  else if n < 4294967296 then
    [254, n % 256, n / 256 % 256, n / 65536 % 256, n / 16777216 % 256]
  else
    [255, n % 256, n / 256 % 256, n / 65536 % 256, n / 16777216 % 256,
     n / 4294967296 % 256, n / 1099511627776 % 256,
     n / 281474976710656 % 256, n / 72057594037927936 % 256]

/-- Modelled from the spec: reading a compact-size length prefix back;
truncated input is a deserialization error. -/
def readCompactSize : List Nat → Except PyError (Nat × List Nat)
  | [] => .error .tooShort
  | b :: rest =>
    if b < 253 then .ok (b, rest)
    else if b = 253 then
      match rest with
      | b0 :: b1 :: r => .ok (b0 + 256 * b1, r)
      | _ => .error .tooShort
    else if b = 254 then
      match rest with
      | b0 :: b1 :: b2 :: b3 :: r =>
        .ok (b0 + 256 * b1 + 65536 * b2 + 16777216 * b3, r)
      | _ => .error .tooShort
    else
      match rest with
      | b0 :: b1 :: b2 :: b3 :: b4 :: b5 :: b6 :: b7 :: r =>
        .ok (b0 + 256 * b1 + 65536 * b2 + 16777216 * b3 + 4294967296 * b4 +
          1099511627776 * b5 + 281474976710656 * b6 +
          72057594037927936 * b7, r)
      | _ => .error .tooShort

/-- Modelled from the spec: `BytesSerializer.stream_serialize` — length
prefix then the bytes. -/
def bytesSer (b : List Nat) : List Nat :=
  writeCompactSize b.length ++ b

/-- Modelled from the spec: `BytesSerializer.stream_deserialize` — read the
length prefix, then that many bytes; returns the bytes and the remaining
stream. -/
def bytesDeser (s : List Nat) : Except PyError (List Nat × List Nat) :=
  match readCompactSize s with
  | .error e => .error e
  | .ok (n, rest) =>
    if rest.length < n then .error .tooShort
    else .ok (rest.take n, rest.drop n)

/-- Embeds `TelestaiMessage.stream_serialize`
(`src/telestai/signmessage.py` 64–68): serialize magic, then message. -/
def TelestaiMessage.serialize (m : TelestaiMessage) : List Nat :=
  bytesSer m.magic ++ bytesSer m.message

/-- A Python value that is either a text string (carried as its UTF-8
bytes) or a bytes object; the distinction is what
`TelestaiMessage.stream_deserialize` trips over. -/
inductive PyVal where
  | pystr (utf8 : List Nat)
  | pybytes (bs : List Nat)
  deriving DecidableEq

/-- Python's `.encode('utf-8')`: defined on `str`; on a Python-3 `bytes`
object the attribute does not exist and an `AttributeError` is raised. -/
def PyVal.encodeUtf8 : PyVal → Except PyError (List Nat)
  | .pystr u => .ok u
  | .pybytes _ => .error .attributeError

/-- Embeds `TelestaiMessage.__init__` (`src/telestai/signmessage.py`
53–55): `message.encode("utf-8")` then `magic.encode("utf-8")`. -/
def TelestaiMessage.init (message magic : PyVal) :
    Except PyError TelestaiMessage :=
  match PyVal.encodeUtf8 message with
  | .error e => .error e
  | .ok m =>
    match PyVal.encodeUtf8 magic with
    | .error e => .error e
    | .ok g => .ok ⟨g, m⟩

/-- Embeds `TelestaiMessage.stream_deserialize`
(`src/telestai/signmessage.py` 57–62): read the magic bytes, then the
message bytes, then call the constructor as `cls(message, magic)` — passing
the deserialized `bytes` objects where the constructor expects `str`. -/
def TelestaiMessage.stream_deserialize (s : List Nat) :
    Except PyError TelestaiMessage :=
  match bytesDeser s with
  | .error e => .error e
  | .ok (magic, rest) =>
    match bytesDeser rest with
    | .error e => .error e
    | .ok (message, _) => TelestaiMessage.init (.pybytes message) (.pybytes magic)

/-- Embeds `ImmutableSerializable.GetHash` for messages
(`telestai.core.serialize`, not under `src/`; spec §4.5): double-SHA256 of
the serialized envelope. -/
def TelestaiMessage.GetHash (ext : ExtCrypto) (m : TelestaiMessage) : List Nat :=
  ext.dsha256 m.serialize

/-- Embeds `SignMessage` (`src/telestai/signmessage.py` 39–46):
`sig, i = key.sign_compact(message.GetHash())`; `meta = 27 + i`, plus 4
when the key is compressed; base64 of the header byte followed by the
signature. -/
def SignMessage (ext : ExtCrypto) (key : CKey) (message : TelestaiMessage) :
    List Nat :=
  b64encode ((if key.compressed then 27 + (CKey.sign_compact ext key (message.GetHash ext)).2 + 4
    else 27 + (CKey.sign_compact ext key (message.GetHash ext)).2) ::
      (CKey.sign_compact ext key (message.GetHash ext)).1)

/-- Modelled from the spec: `CPubKey.recover_compact`
(`telestai/core/key.py`, not under `src/`; spec §4.4): decode
`recovery_id = (header - 27) & 3` and `compressed = header ≥ 31`, fail
with `InvalidHeaderByte` when the header byte is outside `[27, 34]`, then
delegate point recovery to the curve library. -/
def CPubKey.recover_compact (ext : ExtCrypto) (hash sig : List Nat) :
    Except PyError (List Nat) :=
  match sig with
  | [] => .error .invalidHeaderByte
  | hdr :: sig64 =>
    if hdr < 27 ∨ 34 < hdr then .error .invalidHeaderByte
    else ext.recover hash ((hdr - 27) % 4) (decide (31 ≤ hdr)) sig64

/-- Embeds `P2PKHTelestaiAddress.from_pubkey` with the default
`accept_invalid=False` (`src/telestai/wallet.py` 224–244): reject a pubkey
the curve library does not validate, otherwise hash and build the base58
address. -/
def P2PKHTelestaiAddress.from_pubkey (ext : ExtCrypto) (p : ChainParams)
    (pubkey : List Nat) : Except PyError TAddr :=
  if ext.isFullyValid pubkey then
    CBase58TelestaiAddress.from_bytes p (ext.hash160 pubkey) p.PUBKEY_ADDR
  else .error .invalidPubkey

/-- String form of a base58 address (`CBase58Data.__str__`,
`telestai/base58.py` not under `src/`; spec §4.2 encode over
`version ++ payload`). -/
def TAddr.str (ext : ExtCrypto) (a : TAddr) : List Nat :=
  base58CheckEncode ext.dsha256 (a.nVersion :: a.data)

/-- Embeds `VerifyMessage` (`src/telestai/signmessage.py` 30–36): base64
decode, recover the public key, derive its P2PKH address, and compare
string forms; the source has no exception handling, so every failure
propagates. -/
def VerifyMessage (ext : ExtCrypto) (p : ChainParams) (address : List Nat)
    (message : TelestaiMessage) (sig : List Nat) : Except PyError Bool :=
  match b64decode sig with
  | .error e => .error e
  | .ok sigb =>
    match CPubKey.recover_compact ext (message.GetHash ext) sigb with
    | .error e => .error e
    | .ok pubkey =>
      match P2PKHTelestaiAddress.from_pubkey ext p pubkey with
      | .error e => .error e
      | .ok a => .ok (TAddr.str ext a == address)

/-- Concrete external-primitive bundle used by the witnesses: constant
hashes, a fixed key pair and a recovery function that returns that pair's
public key. -/
def extW : ExtCrypto :=
  { dsha256 := fun _ => List.replicate 32 0,
    hash160 := fun _ => List.replicate 20 0,
    pubkeyOf := fun _ _ => [2, 3],
    isFullyValid := fun _ => true,
    signCompact := fun _ _ _ => (List.replicate 64 5, 1),
    recover := fun _ _ _ _ => .ok [2, 3] }

/-- Sighash-type byte `SIGHASH_ALL` (`evrmore.core.script`). -/
def SIGHASH_ALL : Nat := 1

/-- Modelled from the spec: the redeem-script value handed to the multisig
signer — its serialized bytes together with `required`, the multisig
threshold encoded in the script (spec §3 `MultisigSigningState`,
`required: u32`); `evrmore.core.script.CScript` is not under `src/`. -/
structure RedeemScript where
  bytes : List Nat
  required : Nat
  deriving DecidableEq

/-- Python's `len()` applied to an `int` value: always a `TypeError`
(`len(redeem_script.required)` in the source). -/
def pyLenOfInt (_ : Nat) : Except PyError Nat :=
  .error .typeError

/-- Loop of `sign_with_multiple_keys`: before signing with each key the
source evaluates `len(signatures) >= len(redeem_script.required)`. -/
def signMultiGo (sign : CKey → List Nat → List Nat) (sighash : List Nat)
    (redeem_script : RedeemScript) :
    List CKey → List (List Nat) → Except PyError (List (List Nat))
  | [], sigs => .ok sigs
  | k :: rest, sigs =>
    match pyLenOfInt redeem_script.required with
    | .error e => .error e
    | .ok req =>
      if req ≤ sigs.length then .ok sigs
      else signMultiGo sign sighash redeem_script rest
        (sigs ++ [sign k sighash ++ [SIGHASH_ALL]])

/-- Embeds `CMultiSigTransaction.sign_with_multiple_keys`
(`src/evrmore/core/transaction.py` 8–26): compute one signature hash for
input 0 with the external `SignatureHash` (a parameter), then iterate the
keys, appending `privkey.sign(sighash) + bytes([SIGHASH_ALL])` until the
break condition `len(signatures) >= len(redeem_script.required)` fires. -/
def sign_with_multiple_keys
    (sigHashOf : RedeemScript → CMultiSigTransaction → Nat → Nat → List Nat)
    (sign : CKey → List Nat → List Nat) (tx : CMultiSigTransaction)
    (private_keys : List CKey) (redeem_script : RedeemScript) :
    Except PyError (List (List Nat)) :=
  signMultiGo sign (sigHashOf redeem_script tx 0 SIGHASH_ALL) redeem_script
    private_keys []

theorem toDigitsGo_eq_digits (b : Nat) (hb : 2 ≤ b) :
    ∀ fuel n, n ≤ fuel → toDigitsGo b fuel n = Nat.digits b n := by
  intro fuel
  induction fuel with
  | zero =>
    intro n hn
    have : n = 0 := Nat.le_zero.mp hn
    subst this
    simp [toDigitsGo]
  | succ f ih =>
    intro n hn
    by_cases h : n = 0
    · subst h; simp [toDigitsGo]
    · have hpos : 0 < n := Nat.pos_of_ne_zero h
      have hdiv : n / b < n := Nat.div_lt_self hpos hb
      have hle : n / b ≤ f := by omega
      rw [toDigitsGo, if_neg h, ih _ hle, Nat.digits_def' (by omega : 1 < b) hpos]

theorem toBaseDigits_eq_digits (b n : Nat) (hb : 2 ≤ b) :
    toBaseDigits b n = Nat.digits b n :=
  toDigitsGo_eq_digits b hb n n (Nat.le_refl n)

theorem countLeading_replicate_append (x z : Nat) (l : List Nat) :
    countLeading x (List.replicate z x ++ l) = z + countLeading x l := by
  induction z with
  | zero => simp
  | succ k ih => simp [List.replicate_succ, countLeading, ih]; omega

theorem countLeading_nil (x : Nat) : countLeading x [] = 0 := rfl

theorem countLeading_cons_ne (x a : Nat) (l : List Nat) (h : a ≠ x) :
    countLeading x (a :: l) = 0 := by
  simp [countLeading, h]

theorem countLeading_split (x : Nat) (l : List Nat) :
    l = List.replicate (countLeading x l) x ++ l.drop (countLeading x l) := by
  induction l with
  | nil => rfl
  | cons a r ih =>
    by_cases h : a = x
    · subst h
      have hc : countLeading a (a :: r) = countLeading a r + 1 := by
        simp [countLeading]
      rw [hc, List.replicate_succ, List.cons_append, List.drop_succ_cons]
      exact congrArg _ ih
    · simp [countLeading, h]

theorem countLeading_drop_head (x : Nat) (l : List Nat) (c : Nat) (r : List Nat)
    (h : l.drop (countLeading x l) = c :: r) : c ≠ x := by
  induction l with
  | nil => simp at h
  | cons a t ih =>
    by_cases ha : a = x
    · subst ha
      simp only [countLeading, if_pos rfl] at h
      exact ih (by simpa using h)
    · simp [countLeading, ha] at h
      exact h.1 ▸ ha

theorem ofDigits_replicate_zero (b z : Nat) :
    Nat.ofDigits b (List.replicate z 0) = 0 := by
  induction z with
  | zero => simp [Nat.ofDigits]
  | succ k ih => simp [List.replicate_succ, Nat.ofDigits, ih]

theorem ofDigits_append_replicate_zero (b z : Nat) (l : List Nat) :
    Nat.ofDigits b (l ++ List.replicate z 0) = Nat.ofDigits b l := by
  rw [Nat.ofDigits_append, ofDigits_replicate_zero]
  simp

theorem b58chars_length : b58chars.length = 58 := by decide

theorem encDigit_mem (d : Nat) (hd : d < 58) : encDigit d ∈ b58chars := by
  have hlen : d < b58chars.length := by rw [b58chars_length]; exact hd
  rw [encDigit, List.getD_eq_getElem b58chars 0 hlen]
  exact List.getElem_mem hlen

theorem decDigit_encDigit : ∀ d < 58, decDigit (encDigit d) = d := by decide

theorem decDigit_49 : decDigit 49 = 0 := by decide

theorem encDigit_ne_49 : ∀ d < 58, d ≠ 0 → encDigit d ≠ 49 := by decide

theorem mem_b58chars_49 : (49 : Nat) ∈ b58chars := by decide

theorem countLeading_replicate (x z : Nat) :
    countLeading x (List.replicate z x) = z := by
  simpa using countLeading_replicate_append x z []

theorem bytesToNat_replicate_zero (z : Nat) :
    bytesToNat (List.replicate z 0) = 0 := by
  simp [bytesToNat, List.reverse_replicate, ofDigits_replicate_zero]

theorem toBaseDigits_zero (b : Nat) : toBaseDigits b 0 = [] := rfl

theorem natToBytes_zero : natToBytes 0 = [] := rfl

theorem b58decode_replicate_ones (z : Nat) :
    b58decode (List.replicate z 49) = .ok (List.replicate z 0) := by
  rw [b58decode, if_pos]
  · rw [countLeading_replicate]
    simp [List.map_replicate, decDigit_49, List.reverse_replicate,
      ofDigits_replicate_zero, natToBytes_zero]
  · rw [List.all_eq_true]
    intro c hc
    rw [List.mem_replicate] at hc
    rw [hc.2]
    exact decide_eq_true mem_b58chars_49

/-- Minimal big-endian bytes of the value of a byte string with a nonzero
leading byte recover the byte string. -/
theorem natToBytes_bytesToNat (c : Nat) (r : List Nat)
    (hc : c ≠ 0) (hb : ∀ x ∈ c :: r, x < 256) :
    natToBytes (bytesToNat (c :: r)) = c :: r := by
  have hdig : Nat.digits 256 (Nat.ofDigits 256 (c :: r).reverse) = (c :: r).reverse := by
    apply Nat.digits_ofDigits 256 (by norm_num)
    · intro l hl
      exact hb l (List.mem_reverse.mp hl)
    · intro hne
      have h1 : (c :: r).reverse.getLast? = some c := by
        rw [List.getLast?_reverse]
        rfl
      rw [List.getLast?_eq_getLast _ hne] at h1
      rw [Option.some_inj.mp h1]
      exact hc
  rw [natToBytes, bytesToNat, toBaseDigits_eq_digits _ _ (by norm_num), hdig,
    List.reverse_reverse]

/-- Raw base-58 round-trip: decoding the encoding of any byte string
recovers it. -/
theorem b58decode_b58encode (bs : List Nat) (h : ∀ x ∈ bs, x < 256) :
    b58decode (b58encode bs) = .ok bs := by
  obtain ⟨z, hzz⟩ : ∃ z, countLeading 0 bs = z := ⟨_, rfl⟩
  have hsplit := countLeading_split 0 bs
  rw [hzz] at hsplit
  cases hcr : bs.drop z with
  | nil =>
    rw [hcr, List.append_nil] at hsplit
    rw [hsplit, b58encode, countLeading_replicate, bytesToNat_replicate_zero,
      toBaseDigits_zero]
    simp only [List.reverse_nil, List.map_nil, List.append_nil]
    rw [b58decode_replicate_ones]
  | cons c r =>
    have hc : c ≠ 0 := by
      apply countLeading_drop_head 0 bs c r
      rw [hzz, hcr]
    have hcore256 : ∀ x ∈ c :: r, x < 256 := by
      intro x hx
      have hx' : x ∈ List.drop z bs := by rw [hcr]; exact hx
      exact h x (List.mem_of_mem_drop hx')
    have hnat : natToBytes (bytesToNat (c :: r)) = c :: r :=
      natToBytes_bytesToNat c r hc hcore256
    have hval : bytesToNat bs = bytesToNat (c :: r) := by
      rw [bytesToNat, bytesToNat]
      calc Nat.ofDigits 256 bs.reverse
          = Nat.ofDigits 256 ((List.replicate z 0 ++ c :: r).reverse) := by
            rw [← hcr, ← hsplit]
        _ = Nat.ofDigits 256 ((c :: r).reverse ++ List.replicate z 0) := by
            rw [List.reverse_append, List.reverse_replicate]
        _ = Nat.ofDigits 256 ((c :: r).reverse) :=
            ofDigits_append_replicate_zero _ _ _
    have hn0 : bytesToNat (c :: r) ≠ 0 := by
      intro h0
      have := hnat
      rw [h0, natToBytes_zero] at this
      exact List.cons_ne_nil c r this.symm
    have hdigne : Nat.digits 58 (bytesToNat (c :: r)) ≠ [] :=
      Nat.digits_ne_nil_iff_ne_zero.mpr hn0
    have hD : toBaseDigits 58 (bytesToNat bs) = Nat.digits 58 (bytesToNat (c :: r)) := by
      rw [hval, toBaseDigits_eq_digits _ _ (by norm_num)]
    have hD58 : ∀ d ∈ (Nat.digits 58 (bytesToNat (c :: r))).reverse, d < 58 := by
      intro d hd
      exact Nat.digits_lt_base (by norm_num) (List.mem_reverse.mp hd)
    obtain ⟨d0, D', hDcons⟩ :
        ∃ d0 D', (Nat.digits 58 (bytesToNat (c :: r))).reverse = d0 :: D' := by
      cases hrev : (Nat.digits 58 (bytesToNat (c :: r))).reverse with
      | nil =>
        exact absurd (List.reverse_eq_nil_iff.mp hrev) hdigne
      | cons a b => exact ⟨a, b, rfl⟩
    have hd0 : d0 ≠ 0 := by
      have h1 : (Nat.digits 58 (bytesToNat (c :: r))).reverse.head? = some d0 := by
        rw [hDcons]; rfl
      rw [List.head?_reverse] at h1
      rw [List.getLast?_eq_getLast _ hdigne] at h1
      have h3 : (Nat.digits 58 (bytesToNat (c :: r))).getLast hdigne = d0 :=
        Option.some_inj.mp h1
      rw [← h3]
      exact Nat.getLast_digit_ne_zero 58 hn0
    have hd0lt : d0 < 58 := hD58 d0 (hDcons ▸ List.mem_cons_self d0 D')
    -- the encoded string
    rw [b58encode, hzz, hD, hDcons]
    rw [b58decode, if_pos]
    · have hmapdec :
          ((List.replicate z 49 ++ (d0 :: D').map encDigit).map decDigit) =
            List.replicate z 0 ++ d0 :: D' := by
        rw [List.map_append, List.map_replicate, decDigit_49, List.map_map]
        congr 1
        have : ∀ d ∈ d0 :: D', (decDigit ∘ encDigit) d = id d := by
          intro d hd
          exact decDigit_encDigit d (hD58 d (hDcons ▸ hd))
        rw [List.map_congr_left this, List.map_id]
      have hcount :
          countLeading 49 (List.replicate z 49 ++ (d0 :: D').map encDigit) = z := by
        rw [countLeading_replicate_append]
        have : countLeading 49 ((d0 :: D').map encDigit) = 0 := by
          rw [List.map_cons]
          exact countLeading_cons_ne 49 _ _ (encDigit_ne_49 d0 hd0lt hd0)
        rw [this]
        omega
      rw [hcount, hmapdec, List.reverse_append, List.reverse_replicate,
        ofDigits_append_replicate_zero, ← hDcons, List.reverse_reverse,
        Nat.ofDigits_digits, hnat, ← hcr, ← hsplit]
    · rw [List.all_eq_true]
      intro ch hch
      rcases List.mem_append.mp hch with h1 | h1
      · rw [(List.mem_replicate.mp h1).2]
        exact decide_eq_true mem_b58chars_49
      · obtain ⟨d, hd, hde⟩ := List.mem_map.mp h1
        rw [← hde]
        exact decide_eq_true (encDigit_mem d (hD58 d (hDcons ▸ hd)))

/-- Base58Check round-trip for any checksum function producing at least 4
bytes. -/
theorem base58CheckDecode_encode (H : List Nat → List Nat) (p : List Nat)
    (hp : ∀ x ∈ p, x < 256) (hH : ∀ x ∈ H p, x < 256) (hH4 : 4 ≤ (H p).length) :
    base58CheckDecode H (base58CheckEncode H p) = .ok p := by
  have hbytes : ∀ x ∈ p ++ (H p).take 4, x < 256 := by
    intro x hx
    rcases List.mem_append.mp hx with h1 | h1
    · exact hp x h1
    · exact hH x (List.mem_of_mem_take h1)
  have htlen : ((H p).take 4).length = 4 := by
    rw [List.length_take]
    omega
  have hdec : b58decode (base58CheckEncode H p) = .ok (p ++ (H p).take 4) :=
    b58decode_b58encode _ hbytes
  have hlen : (p ++ (H p).take 4).length = p.length + 4 := by
    rw [List.length_append, htlen]
  rw [base58CheckDecode]
  simp only [hdec, hlen]
  rw [if_neg (by omega)]
  have hsub : p.length + 4 - 4 = p.length := by omega
  rw [hsub, List.take_left, List.drop_left, if_pos rfl]

/-- Decoding the WIF string written by `to_wif` recovers the version byte
and the stored payload extended by the compression marker. -/
theorem from_wif_to_wif (H : List Nat → List Nat) (params : ChainParams)
    (k : CBase58Data) (hk : ∀ x ∈ k.data, x < 256)
    (hv : params.SECRET_KEY < 256)
    (hHb : ∀ bs, ∀ x ∈ H bs, x < 256) (hH4 : ∀ bs, 4 ≤ (H bs).length) :
    CTelestaiSecret.from_wif H params (CTelestaiSecret.to_wif H params k) =
      .ok ⟨params.SECRET_KEY,
        k.data ++ (if CTelestaiSecret.isCompressed k then [1] else [])⟩ := by
  have hP : ∀ x ∈ params.SECRET_KEY ::
      (k.data ++ (if CTelestaiSecret.isCompressed k then [1] else [])), x < 256 := by
    intro x hx
    rcases List.mem_cons.mp hx with h1 | h1
    · rw [h1]; exact hv
    · rcases List.mem_append.mp h1 with h2 | h2
      · exact hk x h2
      · by_cases hcb : CTelestaiSecret.isCompressed k
        · rw [if_pos hcb] at h2
          simp at h2
          omega
        · rw [if_neg hcb] at h2
          simp at h2
  have hw : CTelestaiSecret.to_wif H params k =
      base58CheckEncode H (params.SECRET_KEY ::
        (k.data ++ (if CTelestaiSecret.isCompressed k then [1] else []))) := rfl
  have hdec := base58CheckDecode_encode H _ hP (hHb _) (hH4 _)
  rw [CTelestaiSecret.from_wif, CBase58Data.from_str, hw]
  simp only [hdec]
  simp

/-- C1: WIF round-trip — decoding the WIF string produced by encoding the
private key `(s, b)` (`CTelestaiSecret.from_secret_bytes` then `to_wif`,
then the `CTelestaiSecret` constructor) yields a key with the same 32-byte
scalar and the same compressed flag. -/
theorem c1_wif_roundtrip (H : List Nat → List Nat) (params : ChainParams)
    (s : List Nat) (b : Bool)
    (hs : s.length = 32) (hsb : ∀ x ∈ s, x < 256)
    (hv : params.SECRET_KEY < 256)
    (hHb : ∀ bs, ∀ x ∈ H bs, x < 256) (hH4 : ∀ bs, 4 ≤ (H bs).length) :
    ∃ k, CTelestaiSecret.from_wif H params
        (CTelestaiSecret.to_wif H params
          (CTelestaiSecret.from_secret_bytes params s b)) = .ok k ∧
      CTelestaiSecret.scalar k = s ∧ CTelestaiSecret.isCompressed k = b := by
  have hcomp : CTelestaiSecret.isCompressed
      (CTelestaiSecret.from_secret_bytes params s b) = b := by
    cases b
    · simp [CTelestaiSecret.isCompressed, CTelestaiSecret.from_secret_bytes, hs]
    · have h1 : (s ++ [1]).getD 32 0 = 1 := by
        rw [List.getD_append_right _ _ _ _ (by omega : s.length ≤ 32), hs]
        decide
      have h2 : (s ++ [1]).length = 33 := by simp [hs]
      simp only [CTelestaiSecret.isCompressed, CTelestaiSecret.from_secret_bytes,
        if_true]
      rw [h1, h2]
      decide
  have hdata : (CTelestaiSecret.from_secret_bytes params s b).data =
      s ++ (if b then [1] else []) := rfl
  have hk : ∀ x ∈ (CTelestaiSecret.from_secret_bytes params s b).data, x < 256 := by
    rw [hdata]
    intro x hx
    rcases List.mem_append.mp hx with h2 | h2
    · exact hsb x h2
    · cases b <;> simp at h2
      omega
  have key := from_wif_to_wif H params (CTelestaiSecret.from_secret_bytes params s b)
    hk hv hHb hH4
  rw [hcomp, hdata] at key
  refine ⟨_, key, ?_, ?_⟩
  · show ((s ++ (if b then [1] else [])) ++ (if b then [1] else [])).take 32 = s
    rw [List.append_assoc]
    exact List.take_left' hs
  · show CTelestaiSecret.isCompressed
      ⟨params.SECRET_KEY, (s ++ (if b then [1] else [])) ++ (if b then [1] else [])⟩ = b
    cases b
    · simp [CTelestaiSecret.isCompressed, hs]
    · have hd : ((s ++ (if (true : Bool) then [1] else [])) ++
          (if (true : Bool) then [1] else [])) = s ++ [1, 1] := by simp
      rw [hd]
      simp only [CTelestaiSecret.isCompressed]
      have h1 : (s ++ [1, 1]).getD 32 0 = 1 := by
        rw [List.getD_append_right _ _ _ _ (by omega : s.length ≤ 32), hs]
        decide
      have h2 : (s ++ [1, 1]).length = 34 := by simp [hs]
      rw [h1, h2]
      decide

/-- Witness for C1 at a concrete scalar, compressed flag, hash function and
the mainnet parameters. -/
theorem c1_wif_roundtrip_witness :
    ∃ k, CTelestaiSecret.from_wif (fun _ => List.replicate 32 0) MainParams
        (CTelestaiSecret.to_wif (fun _ => List.replicate 32 0) MainParams
          (CTelestaiSecret.from_secret_bytes MainParams (List.replicate 32 7) true)) =
        .ok k ∧
      CTelestaiSecret.scalar k = List.replicate 32 7 ∧
      CTelestaiSecret.isCompressed k = true :=
  c1_wif_roundtrip (fun _ => List.replicate 32 0) MainParams (List.replicate 32 7) true
    (by simp)
    (by intro x hx; rw [(List.mem_replicate.mp hx).2]; omega)
    (by decide)
    (fun bs x hx => by rw [(List.mem_replicate.mp hx).2]; omega)
    (fun bs => by simp)

/-- C9: `SelectParams` fails with the unknown-network error for every name
outside mainnet/testnet/regtest, leaving the active parameters unchanged,
and for those three names replaces the active parameter set with the
corresponding network's parameters. -/
theorem c9_selectParams (name : String) (g : TelestaiGlobals) :
    (name ≠ "mainnet" → name ≠ "testnet" → name ≠ "regtest" →
      SelectParams name g = (.error .valueError, g)) ∧
    SelectParams "mainnet" g = (.ok (), ⟨MainParams, MainParams⟩) ∧
    SelectParams "testnet" g = (.ok (), ⟨TestNetParams, TestNetParams⟩) ∧
    SelectParams "regtest" g = (.ok (), ⟨RegTestParams, RegTestParams⟩) := by
  refine ⟨?_, rfl, rfl, rfl⟩
  intro h1 h2 h3
  rw [SelectParams, SelectCoreParams, if_neg h1, if_neg h2, if_neg h3]

/-- Witness for C9 at the concrete unknown name `"foo"`. -/
theorem c9_selectParams_witness :
    SelectParams "foo" ⟨MainParams, MainParams⟩ =
      (.error .valueError, ⟨MainParams, MainParams⟩) :=
  (c9_selectParams "foo" ⟨MainParams, MainParams⟩).1
    (by decide) (by decide) (by decide)

theorem parseGo_nil (fuel : Nat) : parseGo fuel [] = .ok [] := by
  cases fuel <;> rfl

theorem parseGo_op (fuel b : Nat) (rest : List Nat) (hb : 0x4e < b) :
    parseGo (fuel + 1) (b :: rest) =
      (parseGo fuel rest).map (fun es => .op b :: es) := by
  simp only [parseGo]
  rw [if_neg (by omega), if_neg (by simp only [OP_PUSHDATA1]; omega),
    if_neg (by simp only [OP_PUSHDATA2]; omega),
    if_neg (by simp only [OP_PUSHDATA4]; omega)]

theorem parseGo_push (fuel b : Nat) (rest : List Nat) (hb : b ≤ 0x4b)
    (hlen : ¬ rest.length < b) :
    parseGo (fuel + 1) (b :: rest) =
      (parseGo fuel (rest.drop b)).map (fun es => .data (rest.take b) :: es) := by
  simp only [parseGo]
  rw [if_pos hb, if_neg hlen]

/-- Canonicalizing the canonical 25-byte P2PKH template is the identity. -/
theorem canonicalize_p2pkh_template (h : List Nat) (hlen : h.length = 20) :
    canonicalize (OP_DUP :: OP_HASH160 :: 0x14 :: (h ++ [OP_EQUALVERIFY, OP_CHECKSIG])) =
      .ok (OP_DUP :: OP_HASH160 :: 0x14 :: (h ++ [OP_EQUALVERIFY, OP_CHECKSIG])) := by
  have hlen25 :
      (OP_DUP :: OP_HASH160 :: 0x14 :: (h ++ [OP_EQUALVERIFY, OP_CHECKSIG])).length = 25 := by
    simp [hlen]
  rw [canonicalize, parseScript, hlen25]
  rw [show (25 : Nat) = 24 + 1 from rfl, parseGo_op 24 OP_DUP _ (by norm_num [OP_DUP])]
  rw [show (24 : Nat) = 23 + 1 from rfl,
    parseGo_op 23 OP_HASH160 _ (by norm_num [OP_HASH160])]
  have hr : ¬ (h ++ [OP_EQUALVERIFY, OP_CHECKSIG]).length < 0x14 := by
    simp [hlen]
  rw [show (23 : Nat) = 22 + 1 from rfl, parseGo_push 22 0x14 _ (by norm_num) hr]
  rw [List.take_left' hlen, List.drop_left' hlen]
  have hrest : parseGo 22 [OP_EQUALVERIFY, OP_CHECKSIG] =
      .ok [.op OP_EQUALVERIFY, .op OP_CHECKSIG] := rfl
  rw [hrest]
  simp [Except.map, serializeElems, elemBytes, pushData, hlen]

/-- C6: base58 address/script round-trip — for every 20-byte hash and each
base58 variant, building the address from the hash and the variant's
version byte, converting it to a scriptPubKey, and classifying that script
with `from_scriptPubKey` returns the identical address (same variant, same
hash). -/
theorem c6_base58_script_roundtrip (hash160 : List Nat → List Nat)
    (p : ChainParams) (h : List Nat)
    (hlen : h.length = 20) (hvd : p.PUBKEY_ADDR ≠ p.SCRIPT_ADDR) :
    (∃ a s, CBase58TelestaiAddress.from_bytes p h p.SCRIPT_ADDR = .ok a ∧
      a.kind = .p2sh ∧ a.data = h ∧
      P2SHTelestaiAddress.to_scriptPubKey p a = .ok s ∧
      CTelestaiAddress.from_scriptPubKey hash160 p s = .ok a) ∧
    (∃ a s, CBase58TelestaiAddress.from_bytes p h p.PUBKEY_ADDR = .ok a ∧
      a.kind = .p2pkh ∧ a.data = h ∧
      P2PKHTelestaiAddress.to_scriptPubKey p a = .ok s ∧
      CTelestaiAddress.from_scriptPubKey hash160 p s = .ok a) := by
  have hpush : pushData h = 0x14 :: h := by
    rw [pushData, if_pos (by omega), hlen]
  constructor
  · -- P2SH round-trip
    refine ⟨⟨.p2sh, p.SCRIPT_ADDR, h⟩,
      ([OP_HASH160, 0x14] ++ h) ++ [OP_EQUAL], ?_, rfl, rfl, ?_, ?_⟩
    · rw [CBase58TelestaiAddress.from_bytes, if_pos rfl]
    · rw [P2SHTelestaiAddress.to_scriptPubKey, if_pos rfl]
      rw [show (⟨.p2sh, p.SCRIPT_ADDR, h⟩ : TAddr).data = h from rfl, hpush]
      simp
    · have hlens : (([OP_HASH160, 0x14] ++ h) ++ [OP_EQUAL]).length = 23 := by
        simp [hlen]
      have hg22 : (([OP_HASH160, 0x14] ++ h) ++ [OP_EQUAL]).getD 22 0 = OP_EQUAL := by
        rw [List.getD_append_right _ _ _ _
          (by simp [hlen] : ([OP_HASH160, 0x14] ++ h).length ≤ 22)]
        simp [hlen]
      have hp2sh : is_p2sh (([OP_HASH160, 0x14] ++ h) ++ [OP_EQUAL]) = true := by
        rw [is_p2sh, hlens, hg22]
        simp
      have hdrop : ((([OP_HASH160, 0x14] ++ h) ++ [OP_EQUAL]).drop 2).take 20 = h := by
        rw [List.append_assoc,
          List.drop_left' (by simp : ([OP_HASH160, 0x14] : List Nat).length = 2),
          List.take_left' hlen]
      rw [CTelestaiAddress.from_scriptPubKey, CBase58TelestaiAddress.from_scriptPubKey,
        P2SHTelestaiAddress.from_scriptPubKey, if_pos hp2sh, hdrop,
        CBase58TelestaiAddress.from_bytes, if_pos rfl]
  · -- P2PKH round-trip
    refine ⟨⟨.p2pkh, p.PUBKEY_ADDR, h⟩,
      OP_DUP :: OP_HASH160 :: 0x14 :: (h ++ [OP_EQUALVERIFY, OP_CHECKSIG]),
      ?_, rfl, rfl, ?_, ?_⟩
    · rw [CBase58TelestaiAddress.from_bytes, if_neg hvd, if_pos rfl]
    · rw [P2PKHTelestaiAddress.to_scriptPubKey, if_pos rfl]
      rw [show (⟨.p2pkh, p.PUBKEY_ADDR, h⟩ : TAddr).data = h from rfl, hpush]
      simp
    · have hlens :
          (OP_DUP :: OP_HASH160 :: 0x14 :: (h ++ [OP_EQUALVERIFY, OP_CHECKSIG])).length = 25 := by
        simp [hlen]
      have hnotp2sh :
          is_p2sh (OP_DUP :: OP_HASH160 :: 0x14 :: (h ++ [OP_EQUALVERIFY, OP_CHECKSIG])) = false := by
        rw [is_p2sh, hlens]
        simp
      have hP2SHfail : P2SHTelestaiAddress.from_scriptPubKey p
          (OP_DUP :: OP_HASH160 :: 0x14 :: (h ++ [OP_EQUALVERIFY, OP_CHECKSIG])) =
            .error .notRecognized := by
        rw [P2SHTelestaiAddress.from_scriptPubKey, if_neg (by simp [hnotp2sh])]
      have hwkh :
          is_witness_v0_keyhash (OP_DUP :: OP_HASH160 :: 0x14 :: (h ++ [OP_EQUALVERIFY, OP_CHECKSIG])) = false := by
        rw [is_witness_v0_keyhash, hlens]
        simp
      have hnkh :
          is_witness_v0_nested_keyhash (OP_DUP :: OP_HASH160 :: 0x14 :: (h ++ [OP_EQUALVERIFY, OP_CHECKSIG])) = false := by
        rw [is_witness_v0_nested_keyhash, hlens]
        simp [OP_DUP]
      have heq23 :
          (OP_DUP :: OP_HASH160 :: 0x14 :: (h ++ [OP_EQUALVERIFY, OP_CHECKSIG])).getD 23 0 = OP_EQUALVERIFY := by
        show (([OP_DUP, OP_HASH160, 0x14] ++ h) ++ [OP_EQUALVERIFY, OP_CHECKSIG]).getD 23 0 = OP_EQUALVERIFY
        rw [List.getD_append_right _ _ _ _
          (by simp [hlen] : ([OP_DUP, OP_HASH160, 0x14] ++ h).length ≤ 23)]
        simp [hlen]
      have heq24 :
          (OP_DUP :: OP_HASH160 :: 0x14 :: (h ++ [OP_EQUALVERIFY, OP_CHECKSIG])).getD 24 0 = OP_CHECKSIG := by
        show (([OP_DUP, OP_HASH160, 0x14] ++ h) ++ [OP_EQUALVERIFY, OP_CHECKSIG]).getD 24 0 = OP_CHECKSIG
        rw [List.getD_append_right _ _ _ _
          (by simp [hlen] : ([OP_DUP, OP_HASH160, 0x14] ++ h).length ≤ 24)]
        simp [hlen]
      have htmpl :
          ((OP_DUP :: OP_HASH160 :: 0x14 :: (h ++ [OP_EQUALVERIFY, OP_CHECKSIG])).length == 25 &&
            (OP_DUP :: OP_HASH160 :: 0x14 :: (h ++ [OP_EQUALVERIFY, OP_CHECKSIG])).getD 0 0 == OP_DUP &&
            (OP_DUP :: OP_HASH160 :: 0x14 :: (h ++ [OP_EQUALVERIFY, OP_CHECKSIG])).getD 1 0 == OP_HASH160 &&
            (OP_DUP :: OP_HASH160 :: 0x14 :: (h ++ [OP_EQUALVERIFY, OP_CHECKSIG])).getD 2 0 == 0x14 &&
            (OP_DUP :: OP_HASH160 :: 0x14 :: (h ++ [OP_EQUALVERIFY, OP_CHECKSIG])).getD 23 0 == OP_EQUALVERIFY &&
            (OP_DUP :: OP_HASH160 :: 0x14 :: (h ++ [OP_EQUALVERIFY, OP_CHECKSIG])).getD 24 0 == OP_CHECKSIG) = true := by
        rw [hlens, heq23, heq24]
        simp
      have hdrop :
          (((OP_DUP :: OP_HASH160 :: 0x14 :: (h ++ [OP_EQUALVERIFY, OP_CHECKSIG])).drop 3).take 20) = h := by
        show ((([OP_DUP, OP_HASH160, 0x14] ++ h) ++ [OP_EQUALVERIFY, OP_CHECKSIG]).drop 3).take 20 = h
        rw [List.append_assoc,
          List.drop_left' (by simp : ([OP_DUP, OP_HASH160, 0x14] : List Nat).length = 3),
          List.take_left' hlen]
      rw [CTelestaiAddress.from_scriptPubKey, CBase58TelestaiAddress.from_scriptPubKey,
        hP2SHfail, P2PKHTelestaiAddress.from_scriptPubKey]
      simp only [if_true]
      rw [canonicalize_p2pkh_template h hlen]
      simp only [hwkh, htmpl, hnkh, Bool.false_eq_true, if_false, if_pos]
      rw [hdrop, CBase58TelestaiAddress.from_bytes, if_neg hvd, if_pos rfl]

/-- Witness for C6 at a concrete hash and the mainnet parameters. -/
theorem c6_base58_script_roundtrip_witness :
    (∃ a s, CBase58TelestaiAddress.from_bytes MainParams (List.replicate 20 7)
        MainParams.SCRIPT_ADDR = .ok a ∧
      a.kind = .p2sh ∧ a.data = List.replicate 20 7 ∧
      P2SHTelestaiAddress.to_scriptPubKey MainParams a = .ok s ∧
      CTelestaiAddress.from_scriptPubKey (fun _ => List.replicate 20 0) MainParams s = .ok a) ∧
    (∃ a s, CBase58TelestaiAddress.from_bytes MainParams (List.replicate 20 7)
        MainParams.PUBKEY_ADDR = .ok a ∧
      a.kind = .p2pkh ∧ a.data = List.replicate 20 7 ∧
      P2PKHTelestaiAddress.to_scriptPubKey MainParams a = .ok s ∧
      CTelestaiAddress.from_scriptPubKey (fun _ => List.replicate 20 0) MainParams s = .ok a) :=
  c6_base58_script_roundtrip (fun _ => List.replicate 20 0) MainParams
    (List.replicate 20 7) (by simp) (by decide)

/-- C5 (amended): `from_scriptPubKey` classifies every script by the
first-match order of `specClassify` — P2SH first, then (after push
canonicalization) witness-v0 key-hash as P2PKH, nested key-hash as P2PKH,
the canonical P2PKH template, and bare-checksig as P2PKH; every other
script, including witness-v0 script-hash, fails with the
unrecognized-format error. -/
theorem c5_amended_matching (hash160 : List Nat → List Nat) (p : ChainParams)
    (s : List Nat) (hvd : p.PUBKEY_ADDR ≠ p.SCRIPT_ADDR) :
    CTelestaiAddress.from_scriptPubKey hash160 p s = specClassify hash160 p s := by
  by_cases h1 : is_p2sh s = true
  · have hp2sh : P2SHTelestaiAddress.from_scriptPubKey p s =
        .ok ⟨.p2sh, p.SCRIPT_ADDR, (s.drop 2).take 20⟩ := by
      rw [P2SHTelestaiAddress.from_scriptPubKey, if_pos h1,
        CBase58TelestaiAddress.from_bytes, if_pos rfl]
    rw [CTelestaiAddress.from_scriptPubKey, CBase58TelestaiAddress.from_scriptPubKey,
      hp2sh, specClassify, if_pos h1]
  · have hp2shFail : P2SHTelestaiAddress.from_scriptPubKey p s =
        .error .notRecognized := by
      rw [P2SHTelestaiAddress.from_scriptPubKey, if_neg h1]
    rw [CTelestaiAddress.from_scriptPubKey, CBase58TelestaiAddress.from_scriptPubKey,
      hp2shFail, P2PKHTelestaiAddress.from_scriptPubKey, specClassify, if_neg h1]
    simp only [if_true]
    cases hcs : canonicalize s with
    | error e => rfl
    | ok cs =>
      simp only []
      by_cases h2 : is_witness_v0_keyhash cs = true
      · rw [if_pos h2, if_pos h2, CBase58TelestaiAddress.from_bytes, if_neg hvd,
          if_pos rfl]
      · rw [if_neg h2, if_neg h2]
        by_cases h3 : is_witness_v0_nested_keyhash cs = true
        · rw [if_pos h3, if_pos h3, CBase58TelestaiAddress.from_bytes, if_neg hvd,
            if_pos rfl]
        · rw [if_neg h3, if_neg h3]
          by_cases h4 : (cs.length == 25 && cs.getD 0 0 == OP_DUP &&
              cs.getD 1 0 == OP_HASH160 && cs.getD 2 0 == 0x14 &&
              cs.getD 23 0 == OP_EQUALVERIFY && cs.getD 24 0 == OP_CHECKSIG) = true
          · rw [if_pos h4, if_pos h4, CBase58TelestaiAddress.from_bytes, if_neg hvd,
              if_pos rfl]
          · rw [if_neg h4, if_neg h4]
            by_cases h5 : (cs.length == 35 && cs.getD 0 0 == 0x21 &&
                cs.getD 34 0 == OP_CHECKSIG) = true
            · rw [if_pos (by rw [Bool.true_and]; exact h5), if_pos h5,
                P2PKHTelestaiAddress.from_pubkey_accept_invalid,
                CBase58TelestaiAddress.from_bytes, if_neg hvd, if_pos rfl]
            · rw [if_neg (by rw [Bool.true_and]; exact h5), if_neg h5]
              by_cases h6 : (cs.length == 67 && cs.getD 0 0 == 0x41 &&
                  cs.getD 66 0 == OP_CHECKSIG) = true
              · rw [if_pos (by rw [Bool.true_and]; exact h6), if_pos h6,
                  P2PKHTelestaiAddress.from_pubkey_accept_invalid,
                  CBase58TelestaiAddress.from_bytes, if_neg hvd, if_pos rfl]
              · rw [if_neg (by rw [Bool.true_and]; exact h6), if_neg h6]

/-- Witness for the amended C5 at a concrete script (a witness-v0 keyhash
script, which classifies as base58 P2PKH) and the mainnet parameters. -/
theorem c5_amended_matching_witness :
    CTelestaiAddress.from_scriptPubKey (fun _ => List.replicate 20 0) MainParams
        (0 :: 0x14 :: List.replicate 20 7) =
      specClassify (fun _ => List.replicate 20 0) MainParams
        (0 :: 0x14 :: List.replicate 20 7) :=
  c5_amended_matching (fun _ => List.replicate 20 0) MainParams
    (0 :: 0x14 :: List.replicate 20 7) (by decide)

/-- C5 counterexample: on the witness-v0 key-hash script
`OP_0 0x14 <20 × 0x07>`, `from_scriptPubKey` returns a base58 P2PKH
address (66 is the mainnet pubkey version byte), not a P2WPKH address as
the claim states; and on the witness-v0 script-hash script
`OP_0 0x20 <32 × 0x07>` it fails instead of returning a P2WSH address. -/
theorem c5_counterexample :
    CTelestaiAddress.from_scriptPubKey (fun _ => List.replicate 20 0) MainParams
        (0 :: 0x14 :: List.replicate 20 7) =
      .ok ⟨.p2pkh, 66, List.replicate 20 7⟩ ∧
    AddrKind.p2pkh ≠ AddrKind.p2wpkh ∧
    CTelestaiAddress.from_scriptPubKey (fun _ => List.replicate 20 0) MainParams
        (0 :: 0x20 :: List.replicate 32 7) = .error .notRecognized := by
  refine ⟨rfl, by decide, rfl⟩

theorem foldl_append_pushData (sigs : List (List Nat)) (acc : List Nat) :
    sigs.foldl (fun a s => a ++ pushData s) acc =
      acc ++ (sigs.map pushData).flatten := by
  induction sigs generalizing acc with
  | nil => simp
  | cons s rest ih =>
    rw [List.foldl_cons, ih, List.map_cons, List.flatten_cons, List.append_assoc]

/-- C8: `apply_multisig_signatures` sets the first input's unlocking script
to `OP_0`, followed by a push of each supplied signature in supplied order,
followed by a push of the serialized redeem script, and changes nothing
else: the first input's prevout and sequence, the remaining inputs, the
outputs, and all other transaction fields are unchanged. -/
theorem c8_apply_multisig_signatures (tx : CMultiSigTransaction) (i : CTxIn)
    (rest : List CTxIn) (sigs : List (List Nat)) (redeem : List Nat)
    (hvin : tx.vin = i :: rest) :
    apply_multisig_signatures tx sigs redeem =
      .ok { nVersion := tx.nVersion,
            vin := { prevout := i.prevout,
                     scriptSig := OP_0 :: ((sigs.map pushData).flatten ++ pushData redeem),
                     nSequence := i.nSequence } :: rest,
            vout := tx.vout,
            nLockTime := tx.nLockTime } := by
  rw [apply_multisig_signatures, hvin]
  simp only [foldl_append_pushData, List.nil_append]
  rfl

/-- Witness for C8 at a concrete one-input transaction, two signatures and
a concrete redeem script. -/
theorem c8_apply_multisig_signatures_witness :
    apply_multisig_signatures
        ⟨2, [⟨(5, 0), [1, 2], 4294967295⟩], [⟨50, [0xac]⟩], 0⟩
        [[9, 9], [8, 8]] [0x52, 0x52] =
      .ok ⟨2, [⟨(5, 0),
          OP_0 :: (([[9, 9], [8, 8]].map pushData).flatten ++ pushData [0x52, 0x52]),
          4294967295⟩], [⟨50, [0xac]⟩], 0⟩ :=
  c8_apply_multisig_signatures
    ⟨2, [⟨(5, 0), [1, 2], 4294967295⟩], [⟨50, [0xac]⟩], 0⟩
    ⟨(5, 0), [1, 2], 4294967295⟩ [] [[9, 9], [8, 8]] [0x52, 0x52] rfl

theorem b64val_b64chr : ∀ d < 64, b64val (b64chr d) = d := by decide

theorem b64chr_ne_61 : ∀ d < 64, b64chr d ≠ 61 := by decide

/-- Base64 round-trip: decoding the encoding of any byte string recovers
it. -/
theorem b64decode_b64encode (bs : List Nat) (h : ∀ x ∈ bs, x < 256) :
    b64decode (b64encode bs) = .ok bs := by
  induction bs using b64encode.induct with
  | case4 => rfl
  | case1 a b c rest ih =>
    have ha : a < 256 := h a (by simp)
    have hb : b < 256 := h b (by simp)
    have hc : c < 256 := h c (by simp)
    have hrest : ∀ x ∈ rest, x < 256 := fun x hx => h x (by simp [hx])
    have hd1 : (a * 65536 + b * 256 + c) / 262144 < 64 := by omega
    have hd2 : (a * 65536 + b * 256 + c) / 4096 % 64 < 64 := by omega
    have hd3 : (a * 65536 + b * 256 + c) / 64 % 64 < 64 := by omega
    have hd4 : (a * 65536 + b * 256 + c) % 64 < 64 := by omega
    simp only [b64encode, b64decode]
    rw [if_neg (b64chr_ne_61 _ hd3), if_neg (b64chr_ne_61 _ hd4), ih hrest]
    rw [b64val_b64chr _ hd1, b64val_b64chr _ hd2, b64val_b64chr _ hd3,
      b64val_b64chr _ hd4]
    have e1 : (a * 65536 + b * 256 + c) / 262144 * 262144 +
        (a * 65536 + b * 256 + c) / 4096 % 64 * 4096 +
        (a * 65536 + b * 256 + c) / 64 % 64 * 64 +
        (a * 65536 + b * 256 + c) % 64 = a * 65536 + b * 256 + c := by omega
    rw [e1]
    have e2 : (a * 65536 + b * 256 + c) / 65536 = a := by omega
    have e3 : (a * 65536 + b * 256 + c) / 256 % 256 = b := by omega
    have e4 : (a * 65536 + b * 256 + c) % 256 = c := by omega
    rw [e2, e3, e4]
  | case2 a b =>
    have ha : a < 256 := h a (by simp)
    have hb : b < 256 := h b (by simp)
    have hd1 : (a * 65536 + b * 256) / 262144 < 64 := by omega
    have hd2 : (a * 65536 + b * 256) / 4096 % 64 < 64 := by omega
    have hd3 : (a * 65536 + b * 256) / 64 % 64 < 64 := by omega
    simp only [b64encode, b64decode]
    rw [if_neg (b64chr_ne_61 _ hd3), if_pos trivial, if_pos List.isEmpty_nil]
    rw [b64val_b64chr _ hd1, b64val_b64chr _ hd2, b64val_b64chr _ hd3]
    have e1 : ((a * 65536 + b * 256) / 262144 * 262144 +
        (a * 65536 + b * 256) / 4096 % 64 * 4096 +
        (a * 65536 + b * 256) / 64 % 64 * 64) / 65536 = a := by omega
    have e2 : ((a * 65536 + b * 256) / 262144 * 262144 +
        (a * 65536 + b * 256) / 4096 % 64 * 4096 +
        (a * 65536 + b * 256) / 64 % 64 * 64) / 256 % 256 = b := by omega
    rw [e1, e2]
  | case3 a =>
    have ha : a < 256 := h a (by simp)
    have hd1 : a * 65536 / 262144 < 64 := by omega
    have hd2 : a * 65536 / 4096 % 64 < 64 := by omega
    simp only [b64encode, b64decode]
    rw [if_pos trivial, if_pos trivial, if_pos List.isEmpty_nil]
    rw [b64val_b64chr _ hd1, b64val_b64chr _ hd2]
    have e1 : (a * 65536 / 262144 * 262144 + a * 65536 / 4096 % 64 * 4096) / 65536 = a := by
      omega
    rw [e1]

theorem readCompactSize_write (n : Nat) (r : List Nat)
    (h : n < 18446744073709551616) :
    readCompactSize (writeCompactSize n ++ r) = .ok (n, r) := by
  rw [writeCompactSize]
  by_cases h1 : n < 253
  · rw [if_pos h1]
    simp only [List.cons_append, List.nil_append, readCompactSize]
    rw [if_pos h1]
  · rw [if_neg h1]
    by_cases h2 : n < 65536
    · rw [if_pos h2]
      simp only [List.cons_append, List.nil_append, readCompactSize]
      rw [if_pos trivial]
      have e : n % 256 + 256 * (n / 256 % 256) = n := by omega
      rw [e]
      norm_num
    · rw [if_neg h2]
      by_cases h3 : n < 4294967296
      · rw [if_pos h3]
        simp only [List.cons_append, List.nil_append, readCompactSize]
        rw [if_pos trivial]
        have e : n % 256 + 256 * (n / 256 % 256) + 65536 * (n / 65536 % 256) +
            16777216 * (n / 16777216 % 256) = n := by omega
        rw [e]
        norm_num
      · rw [if_neg h3]
        simp only [List.cons_append, List.nil_append, readCompactSize]
        have e : n % 256 + 256 * (n / 256 % 256) + 65536 * (n / 65536 % 256) +
            16777216 * (n / 16777216 % 256) + 4294967296 * (n / 4294967296 % 256) +
            1099511627776 * (n / 1099511627776 % 256) +
            281474976710656 * (n / 281474976710656 % 256) +
            72057594037927936 * (n / 72057594037927936 % 256) = n := by omega
        rw [e]
        norm_num

theorem bytesDeser_bytesSer (b r : List Nat)
    (h : b.length < 18446744073709551616) :
    bytesDeser (bytesSer b ++ r) = .ok (b, r) := by
  rw [bytesSer, List.append_assoc, bytesDeser, readCompactSize_write _ _ h]
  simp only []
  rw [if_neg (by rw [List.length_append]; omega), List.take_left, List.drop_left]

/-- Deserializing any serialized message envelope raises: the constructor
is called with the deserialized `bytes`, whose `.encode('utf-8')` does not
exist in Python 3. -/
theorem stream_deserialize_serialize_raises (m : TelestaiMessage)
    (h1 : m.magic.length < 18446744073709551616)
    (h2 : m.message.length < 18446744073709551616) :
    TelestaiMessage.stream_deserialize m.serialize = .error .attributeError := by
  rw [TelestaiMessage.serialize, TelestaiMessage.stream_deserialize,
    bytesDeser_bytesSer _ _ h1]
  simp only []
  rw [show bytesSer m.message = bytesSer m.message ++ [] from (List.append_nil _).symm,
    bytesDeser_bytesSer _ _ h2]
  rfl

/-- C10: the `TelestaiMessage` serialization round-trip fails — evaluated
at the concrete message with magic bytes `[84, 101]` and message bytes
`[97, 98, 99]`, `stream_deserialize (stream_serialize m)` raises
`AttributeError` (the constructor calls `.encode('utf-8')` on the
deserialized `bytes`) instead of returning a message equal to `m`. -/
theorem c10_message_roundtrip_raises :
    TelestaiMessage.stream_deserialize
        (TelestaiMessage.serialize ⟨[84, 101], [97, 98, 99]⟩) =
      .error .attributeError :=
  stream_deserialize_serialize_raises ⟨[84, 101], [97, 98, 99]⟩
    (by decide) (by decide)

/-- C7: `SignMessage` computes `(signature64, recovery_id)` with
`sign_compact` on the message digest, sets the header byte to
`27 + recovery_id`, plus 4 exactly when the key is compressed, and returns
the base64 encoding of the header byte followed by the 64 signature
bytes. -/
theorem c7_signmessage_structure (ext : ExtCrypto) (key : CKey)
    (message : TelestaiMessage) :
    SignMessage ext key message =
      b64encode ((27 + (CKey.sign_compact ext key (message.GetHash ext)).2 +
        (if key.compressed then 4 else 0)) ::
          (CKey.sign_compact ext key (message.GetHash ext)).1) := by
  cases hc : key.compressed <;> simp [SignMessage, hc]

/-- C2: for every key and message, `VerifyMessage` accepts the signature
produced by `SignMessage` when the claimed address is the P2PKH address
derived from the key's public key, under the spec's standing assumptions
on the curve library: the recovery id is at most 3, the signature is
bytes, and recovery returns the signing key's public key. -/
theorem c2_sign_verify (ext : ExtCrypto) (p : ChainParams) (key : CKey)
    (message : TelestaiMessage) (a : TAddr)
    (hrecid : (CKey.sign_compact ext key (message.GetHash ext)).2 ≤ 3)
    (hsig : ∀ x ∈ (CKey.sign_compact ext key (message.GetHash ext)).1, x < 256)
    (hrecover : ext.recover (message.GetHash ext)
        (CKey.sign_compact ext key (message.GetHash ext)).2 key.compressed
        (CKey.sign_compact ext key (message.GetHash ext)).1 =
        .ok (CKey.pub ext key))
    (haddr : P2PKHTelestaiAddress.from_pubkey ext p (CKey.pub ext key) = .ok a) :
    VerifyMessage ext p (TAddr.str ext a) message (SignMessage ext key message) =
      .ok true := by
  have hb64 : b64decode (SignMessage ext key message) =
      .ok ((if key.compressed then
          27 + (CKey.sign_compact ext key (message.GetHash ext)).2 + 4
        else 27 + (CKey.sign_compact ext key (message.GetHash ext)).2) ::
          (CKey.sign_compact ext key (message.GetHash ext)).1) := by
    rw [SignMessage]
    apply b64decode_b64encode
    intro x hx
    rcases List.mem_cons.mp hx with h1 | h1
    · cases hkc : key.compressed <;> rw [hkc] at h1 <;> simp at h1 <;> omega
    · exact hsig x h1
  simp only [VerifyMessage, hb64, CPubKey.recover_compact]
  have hcond : ¬ ((if key.compressed then
      27 + (CKey.sign_compact ext key (message.GetHash ext)).2 + 4
    else 27 + (CKey.sign_compact ext key (message.GetHash ext)).2) < 27 ∨
      34 < (if key.compressed then
        27 + (CKey.sign_compact ext key (message.GetHash ext)).2 + 4
      else 27 + (CKey.sign_compact ext key (message.GetHash ext)).2)) := by
    cases hkc : key.compressed <;> simp <;> omega
  rw [if_neg hcond]
  have hrid : ((if key.compressed then
      27 + (CKey.sign_compact ext key (message.GetHash ext)).2 + 4
    else 27 + (CKey.sign_compact ext key (message.GetHash ext)).2) - 27) % 4 =
      (CKey.sign_compact ext key (message.GetHash ext)).2 := by
    cases hkc : key.compressed <;> simp <;> omega
  have hcmp : decide (31 ≤ (if key.compressed then
      27 + (CKey.sign_compact ext key (message.GetHash ext)).2 + 4
    else 27 + (CKey.sign_compact ext key (message.GetHash ext)).2)) =
      key.compressed := by
    cases hkc : key.compressed
    · have hlt : ¬ (31 ≤ 27 + (CKey.sign_compact ext key (message.GetHash ext)).2) := by
        omega
      simp [hlt]
    · simp
  rw [hrid, hcmp, hrecover]
  simp only [haddr]
  simp

/-- Witness for C2 at a concrete key, message, address and external
bundle. -/
theorem c2_sign_verify_witness :
    VerifyMessage extW MainParams
        (TAddr.str extW ⟨.p2pkh, 66, List.replicate 20 0⟩) ⟨[77], [88]⟩
        (SignMessage extW ⟨[9], true⟩ ⟨[77], [88]⟩) = .ok true :=
  c2_sign_verify extW MainParams ⟨[9], true⟩ ⟨[77], [88]⟩
    ⟨.p2pkh, 66, List.replicate 20 0⟩
    (by decide)
    (by intro x hx
        simp [CKey.sign_compact, extW] at hx
        omega)
    rfl
    rfl

/-- C4 (amended): `VerifyMessage` has no exception handling — when base64
decoding fails, or recovery fails, or address derivation fails, that error
propagates out of `VerifyMessage` rather than being converted to the
boolean `false`. -/
theorem c4_amended_error_propagation (ext : ExtCrypto) (p : ChainParams)
    (address : List Nat) (message : TelestaiMessage) (sig : List Nat) :
    (∀ e, b64decode sig = .error e →
      VerifyMessage ext p address message sig = .error e) ∧
    (∀ sigb e, b64decode sig = .ok sigb →
      CPubKey.recover_compact ext (message.GetHash ext) sigb = .error e →
      VerifyMessage ext p address message sig = .error e) ∧
    (∀ sigb pub e, b64decode sig = .ok sigb →
      CPubKey.recover_compact ext (message.GetHash ext) sigb = .ok pub →
      P2PKHTelestaiAddress.from_pubkey ext p pub = .error e →
      VerifyMessage ext p address message sig = .error e) := by
  refine ⟨?_, ?_, ?_⟩
  · intro e h1
    simp only [VerifyMessage, h1]
  · intro sigb e h1 h2
    simp only [VerifyMessage, h1, h2]
  · intro sigb pub e h1 h2 h3
    simp only [VerifyMessage, h1, h2, h3]

/-- Witness for the amended C4: a valid base64 string decoding to the
3-byte signature `[0, 0, 0]`, whose header byte 0 is outside `[27, 34]`,
makes `VerifyMessage` propagate `InvalidHeaderByte`. -/
theorem c4_amended_error_propagation_witness :
    VerifyMessage extW MainParams [49] ⟨[77], [88]⟩ (b64encode [0, 0, 0]) =
      .error .invalidHeaderByte :=
  (c4_amended_error_propagation extW MainParams [49] ⟨[77], [88]⟩
      (b64encode [0, 0, 0])).2.1 [0, 0, 0] .invalidHeaderByte rfl rfl

/-- C4 counterexample: on the malformed base64 input `[33]` (`"!"`),
`VerifyMessage` raises the incorrect-padding error instead of returning
`false` — it returns neither `.ok false` nor `.ok true`. -/
theorem c4_counterexample :
    VerifyMessage extW MainParams [49] ⟨[77], [88]⟩ [33] =
        .error .incorrectPadding ∧
    VerifyMessage extW MainParams [49] ⟨[77], [88]⟩ [33] ≠ .ok false ∧
    VerifyMessage extW MainParams [49] ⟨[77], [88]⟩ [33] ≠ .ok true := by
  refine ⟨rfl, fun h => ?_, fun h => ?_⟩
  · rw [show VerifyMessage extW MainParams [49] ⟨[77], [88]⟩ [33] =
      .error .incorrectPadding from rfl] at h
    exact Except.noConfusion h
  · rw [show VerifyMessage extW MainParams [49] ⟨[77], [88]⟩ [33] =
      .error .incorrectPadding from rfl] at h
    exact Except.noConfusion h

/-- C3 (code bug): with a 2-of-3 redeem script (`required = 2`) and three
supplied keys, `sign_with_multiple_keys` raises `TypeError` on the first
iteration — the source computes `len(redeem_script.required)`, applying
`len()` to the integer threshold — instead of returning exactly 2
signatures as the claim states. -/
theorem c3_sign_with_multiple_keys_raises :
    sign_with_multiple_keys (fun _ _ _ _ => List.replicate 32 0)
      (fun _ _ => List.replicate 70 0)
      ⟨2, [⟨(5, 0), [], 4294967295⟩], [⟨50, [0xac]⟩], 0⟩
      [⟨[1], true⟩, ⟨[2], true⟩, ⟨[3], true⟩]
      ⟨[0x52, 0x21, 0x02, 0x52], 2⟩ = .error .typeError := rfl

end Telestailib
